import Mathlib

/-!
Verification of the SOFA_MCP tool server against its specification.

This file shallowly embeds the pure computational cores of the repository's
tool functions and proves (or refutes) the frozen claims about them.

Conventions used throughout:
* Python strings are modelled by `String` (Lean strings are sequences of
  unicode code points, exactly like Python's); string primitives such as
  `str.find`, `str.replace`, `in`, slicing and `str.split` are re-implemented
  below over the character list `String.data` so that every definition is
  executable by kernel reduction.
* Filesystem state is passed explicitly: a file is `Option String`
  (`none` = missing file); a function that writes returns the new state.
* Python exceptions that a function may *raise to its caller* are modelled
  with `Except`; returned error dictionaries are modelled by result
  structures with a `success` flag and `Option`-valued fields.
* Machine floats only ever flow through these tools as opaque ordered
  values (they are parsed, compared and echoed back, never arithmetically
  combined in any claim under study), so numeric tokens are modelled by `ℚ`
  and the `float("inf")` sentinels of the bounding-box fold by
  `WithBot (WithTop ℚ)`.
-/

/-! ### Python string primitives -/

/-- Python `needle in haystack` (substring containment) on char lists. -/
def hasSub : List Char → List Char → Bool
  | [], n => n.isEmpty
  | c :: t, n => n.isPrefixOf (c :: t) || hasSub t n

/-- Python `sub in s` for strings. -/
def strContains (s sub : String) : Bool :=
  hasSub s.data sub.data

/-- Does `n` occur in `h` starting at index `i`? -/
def matchAtL (h n : List Char) (i : Nat) : Bool :=
  n.isPrefixOf (h.drop i)

/-- Number of indices at which `pat` occurs in `s` (how often the text
"appears", counting every starting position). -/
def occCount (s pat : String) : Nat :=
  ((List.range (s.data.length + 1)).filter fun i => matchAtL s.data pat.data i).length

/-- Python `haystack.find(needle, start)`: least index `≥ start` at which
`needle` occurs, or `-1`. -/
def pyFind (hay nd : String) (start : Int) : Int :=
  match ((List.range (hay.data.length + 1)).filter fun i =>
      decide (start ≤ Int.ofNat i) && matchAtL hay.data nd.data i).head? with
  | some i => Int.ofNat i
  | none => -1

/-- Python slice `s[:k]` for `k ≥ 0` (the only case the code exercises). -/
def strTake (s : String) (k : Nat) : String :=
  ⟨s.data.take k⟩

/-- Python slice `s[k:]` for `k ≥ 0` (the only case the code exercises). -/
def strDrop (s : String) (k : Nat) : String :=
  ⟨s.data.drop k⟩

/-- Fuelled core of Python `s.replace(old, new, count)` on char lists.
Fuel `s.length + 1` always suffices: every step either returns or consumes
at least one character of `s`. -/
def pyReplaceAux (old new : List Char) : Nat → List Char → Int → List Char
  | 0, s, _ => s
  | fuel + 1, s, cnt =>
    if cnt ≤ 0 then s
    else
      match old with
      | [] =>
        match s with
        | [] => new
        | c :: rest => new ++ c :: pyReplaceAux old new fuel rest (cnt - 1)
      | _ :: _ =>
        if old.isPrefixOf s then
          new ++ pyReplaceAux old new fuel (s.drop old.length) (cnt - 1)
        else
          match s with
          | [] => []
          | c :: rest => c :: pyReplaceAux old new fuel rest cnt

/-- Python `s.replace(old, new, count)`. -/
def pyReplace (s old new : String) (count : Int) : String :=
  ⟨pyReplaceAux old.data new.data (s.data.length + 1) s.data count⟩

/-- Split a char list at every char satisfying `p`, keeping empty fields. -/
def splitPred (p : Char → Bool) : List Char → List (List Char)
  | [] => [[]]
  | c :: t =>
    let rest := splitPred p t
    if p c then [] :: rest
    else
      match rest with
      | [] => [[c]]
      | f :: fs => (c :: f) :: fs

/-- Python `s.split()`: split on whitespace runs, no empty fields. -/
def pySplitWs (s : String) : List String :=
  ((splitPred Char.isWhitespace s.data).filter fun t => t ≠ []).map List.asString

/-- Python `s.splitlines()` (newline-only model): the trailing empty field
is dropped, so `"a\n"` gives `["a"]` and `""` gives `[]`. -/
def pySplitLines (s : String) : List String :=
  let parts := (splitPred (fun c => c = '\n') s.data).map List.asString
  if parts.getLast? = some "" then parts.dropLast else parts

/-- Python `s.strip()` (both-ends whitespace removal). -/
def pyStrip (s : String) : String :=
  ⟨((s.data.dropWhile Char.isWhitespace).reverse.dropWhile Char.isWhitespace).reverse⟩

/-- Python `s.upper()` (character-wise; ASCII case mapping). -/
def pyUpper (s : String) : String :=
  ⟨s.data.map Char.toUpper⟩

/-- Python `s.lower()` (character-wise; ASCII case mapping). -/
def pyLower (s : String) : String :=
  ⟨s.data.map Char.toLower⟩

/-- Python `s.startswith(pre)`. -/
def pyStartsWith (s pre : String) : Bool :=
  pre.data.isPrefixOf s.data

/-- Python `s.endswith(suf)`. -/
def pyEndsWith (s suf : String) : Bool :=
  suf.data.isSuffixOf s.data

-- sanity checks for the string primitives
example : strContains "hello world" "lo w" = true := by decide
example : strContains "hello" "zz" = false := by decide
example : pyFind "abcabc" "bc" 2 = 4 := by decide
example : pyFind "abc" "zz" 0 = -1 := by decide
example : pyFind "abc" "" 2 = 2 := by decide
example : pyFind "abc" "" 4 = -1 := by decide
example : pyReplace "aaa" "a" "b" 2 = "bba" := by decide
example : pyReplace "ab" "" "X" 3 = "XaXbX" := by decide
example : pySplitWs "  a bc  d " = ["a", "bc", "d"] := by decide
example : pySplitLines "a\nb\n" = ["a", "b"] := by decide
example : pyStrip "  ab c  " = "ab c" := by decide
example : pyUpper "points 3" = "POINTS 3" := by decide
example : occCount "XYab" "ab" = 1 := by decide

/-! ### `scene_writer._find_nth`

Source: `src/sofa_mcp/architect/scene_writer.py`, lines 502-511. Raising
`ValueError` is modelled by `Except.error ()`. -/

/-- The `for _ in range(n)` loop of `_find_nth` (`k` iterations left). -/
def findNthLoop (hay nd : String) : Nat → Int → Int
  | 0, _ => -1
  | k + 1, start =>
    let idx := pyFind hay nd start
    if idx = -1 then -1
    else if k = 0 then idx
    else findNthLoop hay nd k (idx + (nd.data.length : Int))

/-- `_find_nth(haystack, needle, n)`: raises (`.error`) iff `n < 1`,
otherwise returns the index of the `n`-th occurrence or `-1`. -/
def find_nth (hay nd : String) (n : Int) : Except Unit Int :=
  if n < 1 then .error ()
  else .ok (findNthLoop hay nd n.toNat 0)

example : find_nth "abcabc" "bc" 2 = .ok 4 := rfl
example : find_nth "abcabc" "bc" 3 = .ok (-1) := rfl
example : find_nth "abcabc" "bc" 0 = .error () := rfl

/-! ### Python values and the patch-operation dictionaries

A patch operation is a Python dict; `patch_scene` reads the keys
`op`/`type`/`old`/`new`/`count`/`anchor`/`text`/`occurrence`, so an
operation is modelled by those eight optional slots (`none` = key absent;
`some .pynone` = key present with value `None`). -/

/-- The Python values that can sit in a patch dictionary slot. `other b`
stands for any value that is neither a string, an int nor `None`, carrying
only its truthiness `b`. -/
inductive PyVal where
  | str (s : String)
  | int (n : Int)
  | pynone
  | other (truthy : Bool)
deriving DecidableEq

/-- Python truthiness of a modelled value. -/
def PyVal.truthy : PyVal → Bool
  | .str s => s ≠ ""
  | .int n => n ≠ 0
  | .pynone => false
  | .other b => b

/-- One patch-operation dictionary, restricted to the keys the code reads. -/
structure PatchOp where
  op : Option PyVal := none
  type : Option PyVal := none
  old : Option PyVal := none
  new : Option PyVal := none
  count : Option PyVal := none
  anchor : Option PyVal := none
  text : Option PyVal := none
  occurrence : Option PyVal := none
deriving DecidableEq

/-- An element of the operation list: a dict, or any non-dict value. -/
inductive OpElem where
  | dict (d : PatchOp)
  | nonDict
deriving DecidableEq

/-- The `patch` argument of `patch_scene`: a list, or any single value. -/
inductive PatchArg where
  | one (v : OpElem)
  | many (vs : List OpElem)
deriving DecidableEq

/-- `op.get("op") or op.get("type")` (Python `or`: first operand if truthy). -/
def opNameVal (o : PatchOp) : PyVal :=
  let a := o.op.getD .pynone
  if a.truthy then a else o.type.getD .pynone

/-! ### `scene_writer.load_scene` and `scene_writer.patch_scene`

Source: `src/sofa_mcp/architect/scene_writer.py`, lines 453-499 (load) and
514-661 (patch). Result dictionaries are modelled by `PResult`; the
filesystem-path echo fields (`"path"`, `"size_bytes"`) are not modelled, as
no claim mentions them. -/

/-- Shape of the dictionaries returned by `load_scene` / `patch_scene`. -/
structure PResult where
  success : Bool
  message : String := ""
  error : Option String := none
  content : Option String := none
  applied_ops : Option Nat := none
deriving DecidableEq

/-- `load_scene`: `none` models a missing (or non-file) path; an oversized
file is rejected exactly as in the source (`max_bytes = 1_000_000`,
compared against the UTF-8 byte size). -/
def load_scene (file : Option String) : PResult :=
  match file with
  | none =>
    { success := false, message := "Scene file not found."
      error := some "Path does not exist" }
  | some t =>
    if t.utf8ByteSize > 1000000 then
      { success := false, message := "Scene file is too large to load."
        error := some "File size exceeds max_bytes" }
    else
      { success := true, message := "Scene loaded.", content := some t }

/-- Failure of one patch operation: a returned error dictionary
(`message`/`error` pair) or an uncaught exception escaping `patch_scene`. -/
inductive PFail where
  | dict (message error : String)
  | exn
deriving DecidableEq

/-- Apply one patch-operation dictionary to the current text. Transcribes
lines 551-643 of `scene_writer.py`. -/
def applyOp (t : String) (o : PatchOp) : Except PFail String :=
  match opNameVal o with
  | .str s =>
    if s = "" then .error (.dict "Invalid patch operation." "Missing patch field 'op'")
    else if s = "replace" then
      match o.old.getD .pynone, o.new.getD .pynone with
      | .str old, .str new =>
        match o.count.getD (.int 1) with
        | .int c =>
          if c < 1 then
            .error (.dict "Invalid replace operation." "replace op 'count' must be an int >= 1")
          else if ¬ strContains t old then
            .error (.dict "Patch could not be applied." "replace target not found")
          else .ok (pyReplace t old new c)
        | _ => .error (.dict "Invalid replace operation." "replace op 'count' must be an int >= 1")
      | _, _ =>
        .error (.dict "Invalid replace operation." "replace op requires string fields 'old' and 'new'")
    else if s = "insert_before" ∨ s = "insert_after" then
      match o.anchor.getD .pynone, o.text.getD .pynone with
      | .str anchor, .str text =>
        match o.occurrence.getD (.int 1) with
        | .int n =>
          if n < 1 then
            .error (.dict "Invalid insert operation." "insert op 'occurrence' must be an int >= 1")
          else
            match find_nth t anchor n with
            | .error _ => .error .exn
            | .ok idx =>
              if idx = -1 then
                .error (.dict "Patch could not be applied." "insert anchor not found")
              else
                let insertAt : Int := if s = "insert_before" then idx else idx + (anchor.data.length : Int)
                .ok (strTake t insertAt.toNat ++ text ++ strDrop t insertAt.toNat)
        | _ => .error (.dict "Invalid insert operation." "insert op 'occurrence' must be an int >= 1")
      | _, _ =>
        .error (.dict "Invalid insert operation." "insert op requires string fields 'anchor' and 'text'")
    else if s = "append" ∨ s = "prepend" then
      match o.text.getD .pynone with
      | .str text => .ok (if s = "prepend" then text ++ t else t ++ text)
      | _ =>
        .error (.dict "Invalid append/prepend operation." "append/prepend op requires string field 'text'")
    else .error (.dict "Unsupported patch operation." ("Unsupported op: " ++ s))
  | _ => .error (.dict "Invalid patch operation." "Missing patch field 'op'")

/-- The `for op in ops` loop: final text and `applied_ops` counter. -/
def applyElems (t : String) : List OpElem → Except PFail (String × Nat)
  | [] => .ok (t, 0)
  | .nonDict :: _ =>
    .error (.dict "Invalid patch operation." "Each patch operation must be an object/dict")
  | .dict o :: rest =>
    match applyOp t o with
    | .error f => .error f
    | .ok t' =>
      match applyElems t' rest with
      | .error f => .error f
      | .ok (tf, k) => .ok (tf, k + 1)

/-- `patch_scene(scene_path, patch)`. The pair is (returned dictionary, file
state after the call); `.error ()` models an exception escaping the
function. -/
def patch_scene (file : Option String) (arg : PatchArg) :
    Except Unit (PResult × Option String) :=
  let loaded := load_scene file
  if ¬ loaded.success then .ok (loaded, file)
  else
    let original := (loaded.content.getD "")
    let ops := match arg with | .one v => [v] | .many vs => vs
    if ops.isEmpty then
      .ok ({ success := false, message := "Invalid patch format."
             error := some "patch must be a dict or a non-empty list of dicts" }, file)
    else
      match applyElems original ops with
      | .error .exn => .error ()
      | .error (.dict m e) =>
        .ok ({ success := false, message := m, error := some e }, file)
      | .ok (updated, k) =>
        if updated = original then
          .ok ({ success := false, message := "No changes applied."
                 error := some "Patch operations resulted in no modifications" }, file)
        else
          .ok ({ success := true, message := "Scene patched.", applied_ops := some k },
               some updated)

-- sanity checks against the repository's own patch test-cases
example :
    patch_scene (some "abc XX def")
      (.one (.dict { op := some (.str "insert_after"), anchor := some (.str "XX")
                     text := some (.str "!"), occurrence := some (.int 1) })) =
    .ok ({ success := true, message := "Scene patched.", applied_ops := some 1 },
         some "abc XX! def") := rfl

example :
    patch_scene (some "abc")
      (.one (.dict { op := some (.str "insert_after")
                     anchor := some (.str "THIS_ANCHOR_DOES_NOT_EXIST")
                     text := some (.str "x") })) =
    .ok ({ success := false, message := "Patch could not be applied."
           error := some "insert anchor not found" }, some "abc") := rfl

/-! ### `math_sandbox.run_math_script`

Source: `src/sofa_mcp/architect/math_sandbox.py`, lines 12-22. The script
handed to `exec` is modelled by a list of statements that either print a
line to standard output or raise an exception with a message; `exec`
semantics is `execScript`. -/

/-- A statement of the modelled user script. -/
inductive MStmt where
  | print (s : String)
  | raiseE (msg : String)
deriving DecidableEq

/-- `exec(script)` under `redirect_stdout`: returns the captured standard
output and, when the script raised, the exception's `str(e)`. Execution
stops at the first raising statement. -/
def execScript : List MStmt → String → String × Option String
  | [], out => (out, none)
  | .print s :: rest, out => execScript rest (out ++ s ++ "\n")
  | .raiseE m :: _, out => (out, some m)

/-- `run_math_script(script)`: the captured stdout on normal completion,
`str(e)` when the script raised. -/
def run_math_script (script : List MStmt) : String :=
  let r := execScript script ""
  match r.2 with
  | some e => e
  | none => r.1

/-- The text a script writes to standard output before raising (all of it,
when it never raises). Spec-side description used to state claim C4. -/
def scriptStdout : List MStmt → String
  | [] => ""
  | .print s :: rest => s ++ "\n" ++ scriptStdout rest
  | .raiseE _ :: _ => ""

example : run_math_script [.print "4"] = "4\n" := by decide
example : run_math_script [.print "x", .raiseE "division by zero"] = "division by zero" := by decide

/-! ### `scene_writer.validate_scene` and `scene_writer.summarize_scene`

Source: `src/sofa_mcp/architect/scene_writer.py`, lines 292-409. Both shell
out to a SOFA subprocess; the `subprocess.run` call is external, so its
outcome is an explicit input of the model. The temporary-file bookkeeping
(`tempfile`/`os.remove`) has no observable effect on the returned
dictionary and is not modelled. -/

/-- Outcome of the `subprocess.run` call: normal completion (return code,
stdout, stderr), `subprocess.TimeoutExpired`, or any other exception. -/
inductive SubprocOutcome where
  | completed (returncode : Int) (stdout stderr : String)
  | timeout
  | raised (msg : String)
deriving DecidableEq

/-- Shape of the dictionary returned by `validate_scene`. -/
structure VResult where
  success : Bool
  message : String := ""
  error : Option String := none
  stdout : Option String := none
deriving DecidableEq

/-- `validate_scene(script_content)`, as a function of the subprocess
outcome (the script text only feeds the subprocess, so it is not a
parameter of the model). -/
def validate_scene (r : SubprocOutcome) : VResult :=
  match r with
  | .completed rc out err =>
    if rc = 0 then
      { success := true, message := "Scene validated.", stdout := some out }
    else
      { success := false
        message := "Validation failed. Please correct the script based on the error."
        error := some (if err ≠ "" then err else out), stdout := some out }
  | .timeout =>
    { success := false, error := some "Timeout"
      message := "The scene took too long to initialize (possible infinite loop or massive mesh)." }
  | .raised m =>
    { success := false, error := some m
      message := "An unexpected error occurred during execution." }

/-- Result of `summarize_scene`: an error dictionary (`success=False` with
`message`/`error` and nothing else), or the parsed summary payload returned
as-is. `α` is the type of parsed JSON payloads. -/
inductive SumResult (α : Type) where
  | fail (message : String) (error : String)
  | payload (a : α)
deriving DecidableEq

/-- The `"success"` flag of a `summarize_scene` result (an error dictionary
always carries `success=False`; a payload's flag is whatever the JSON had). -/
def SumResult.successFlag {α : Type} (flag : α → Bool) : SumResult α → Bool
  | .fail _ _ => false
  | .payload a => flag a

/-- `summarize_scene(script_content)` as a function of the subprocess
outcome and of the external JSON parser `jp` (`.error` = `json.loads`
raised; the surrounding `except Exception` turns that into a dictionary). -/
def summarize_scene {α : Type} (jp : String → Except String α) (r : SubprocOutcome) :
    SumResult α :=
  match r with
  | .completed rc out err =>
    if rc ≠ 0 then
      .fail "Scene summary failed." (if err ≠ "" then err else out)
    else
      match ((pySplitLines out).reverse.filter fun l =>
          pyStartsWith l "SCENE_SUMMARY_JSON:").head? with
      | none => .fail "Scene summary did not produce JSON output." out
      | some line =>
        match jp (strDrop line (String.length "SCENE_SUMMARY_JSON:")) with
        | .ok a => .payload a
        | .error e => .fail "An unexpected error occurred during summarization." e
  | .timeout =>
    .fail "The scene took too long to build (possible infinite loop or massive mesh)." "Timeout"
  | .raised m => .fail "An unexpected error occurred during summarization." m

/-! ### `component_query.search_sofa_components`

Source: `src/sofa_mcp/architect/component_query.py`, lines 348-401. The
component names come from the on-disk plugin cache, falling back to the
live registry probe when the cache is empty; both lists are external inputs
of the model. -/

/-- Lexicographic (code-point) `≤` on char lists, i.e. Python's string
comparison as used by `sorted`. -/
def lexLe : List Char → List Char → Bool
  | [], _ => true
  | _ :: _, [] => false
  | a :: as_, b :: bs =>
    if a.toNat < b.toNat then true
    else if b.toNat < a.toNat then false
    else lexLe as_ bs

/-- Python `a <= b` on strings. -/
def strLeB (a b : String) : Bool :=
  lexLe a.data b.data

/-- `strLeB` as a decidable relation (for `List.insertionSort`). -/
def strLeP (a b : String) : Prop :=
  strLeB a b = true

instance : DecidableRel strLeP := fun a b => instDecidableEqBool (strLeB a b) true

/-- Python `lst[:k]` for an arbitrary (possibly negative) int `k`. -/
def pyTakeL {α : Type} (k : Int) (l : List α) : List α :=
  if 0 ≤ k then l.take k.toNat else l.take (l.length - (-k).toNat)

/-- Result dictionary of `search_sofa_components`: an error dictionary, or
the success shape `{query, limit, count, matches}`. -/
inductive SearchResult where
  | err (msg : String)
  | found (query : String) (limit : Int) (count : Nat) (ms : List String)
deriving DecidableEq

/-- `raw_query = (query or "").strip()`. -/
def searchRaw (query : String) : String :=
  pyStrip query

/-- The lowered, tokenised query: `re.split(r"[^a-zA-Z0-9]+", q)` minus
empty fields, after optional removal of a trailing `*`. -/
def searchTokens (query : String) : List String :=
  let raw := searchRaw query
  let q0 := if pyEndsWith raw "*" then strTake raw (raw.length - 1) else raw
  let q := pyLower (pyStrip q0)
  ((splitPred (fun c => ¬ c.isAlphanum) q.data).filter fun t => t ≠ []).map List.asString

/-- The per-name match predicate of `search_sofa_components`. -/
def searchMatches (query : String) (name : String) : Bool :=
  let raw := searchRaw query
  let tokens := searchTokens query
  let n := pyLower name
  if pyEndsWith raw "*" then
    if tokens.length = 1 then tokens.any fun t => pyStartsWith n t
    else tokens.all fun t => strContains n t
  else tokens.all fun t => strContains n t

/-- `search_sofa_components(query, limit)`. `cacheNames` is the key list of
the loaded plugin cache and `regNames` the registry-probe fallback used
when the cache is empty. -/
def search_sofa_components (cacheNames regNames : List String)
    (query : String) (limit : Int) : SearchResult :=
  let names := if cacheNames.isEmpty then regNames else cacheNames
  if names.isEmpty then
    .err "Component search is not available. The plugin cache might be empty and the live factory is not responsive."
  else if searchRaw query = "" then
    .err "query must be a non-empty string"
  else if (searchTokens query).isEmpty then
    .err "query must contain at least one alphanumeric character"
  else
    let deduped := List.insertionSort strLeP names.dedup
    let ms := deduped.filter (searchMatches query)
    .found (searchRaw query) limit (pyTakeL limit ms).length (pyTakeL limit ms)

example :
    search_sofa_components ["TriangleSetTopologyContainer", "MechanicalObject",
        "TetrahedronSetTopologyContainer", "MechanicalObject"] [] "tet topology" 50 =
    .found "tet topology" 50 1 ["TetrahedronSetTopologyContainer"] := by decide

example :
    search_sofa_components ["Beta", "Alpha"] [] "   " 50 =
    .err "query must be a non-empty string" := by decide

/-! ### `mesh_inspector._vtk_ascii_parse_points_and_cells`

Source: `src/sofa_mcp/architect/mesh_inspector.py`, lines 47-124. The file
is given as its list of lines (`f.read().splitlines()`); `pf`/`pi` model
the Python builtins `float(token)` / `int(token)` (`none` = the builtin
raises, in which case the token is skipped resp. the count defaults).
Building the point triples indexes `floats[k+1]`/`floats[k+2]`, which can
raise `IndexError`; the whole parse is therefore an `Except`, `.error ()`
being an exception escaping the function. -/

/-- A parsed 3-component point. -/
abbrev Q3 : Type := ℚ × ℚ × ℚ

/-- `line.upper().startswith("POINTS ")` on the stripped line. -/
def isPointsLine (line : String) : Bool :=
  pyStartsWith (pyUpper (pyStrip line)) "POINTS "

/-- `line.upper().startswith("CELLS ")` on the stripped line. -/
def isCellsLine (line : String) : Bool :=
  pyStartsWith (pyUpper (pyStrip line)) "CELLS "

/-- `line.upper().startswith("CELL_TYPES ")` on the stripped line. -/
def isCellTypesLine (line : String) : Bool :=
  pyStartsWith (pyUpper (pyStrip line)) "CELL_TYPES "

/-- The parseable-float tokens of one line (`float(token)` per token of
`line.strip().split()`, skipping failures). -/
def lineFloats (pf : String → Option ℚ) (line : String) : List ℚ :=
  (pySplitWs (pyStrip line)).filterMap pf

/-- The parseable-int tokens of one line. -/
def lineInts (pi : String → Option Int) (line : String) : List Int :=
  (pySplitWs (pyStrip line)).filterMap pi

/-- The `while j < len(lines) and len(floats) < need` collection loop:
returns the collected floats and the unconsumed lines. -/
def collectFloats (pf : String → Option ℚ) :
    List String → Int → List ℚ → List ℚ × List String
  | [], _, acc => (acc, [])
  | l :: rest, need, acc =>
    if (acc.length : Int) < need then collectFloats pf rest need (acc ++ lineFloats pf l)
    else (acc, l :: rest)

/-- The analogous collection loop for `CELL_TYPES` integers. -/
def collectInts (pi : String → Option Int) :
    List String → Int → List Int → List Int × List String
  | [], _, acc => (acc, [])
  | l :: rest, need, acc =>
    if (acc.length : Int) < need then collectInts pi rest need (acc ++ lineInts pi l)
    else (acc, l :: rest)

/-- `for k in range(0, m, 3): pts.append([floats[k], floats[k+1],
floats[k+2]])` — `.error ()` is the `IndexError` raised when fewer than
three floats remain while `k < m`. -/
def buildPts (floats : List ℚ) (m : Int) : Except Unit (List Q3) :=
  if m ≤ 0 then .ok []
  else
    match floats with
    | a :: b :: c :: rest =>
      match buildPts rest (m - 3) with
      | .ok ps => .ok ((a, b, c) :: ps)
      | .error e => .error e
    | _ => .error ()

/-- Accumulated parser state: `points`, `cell_count`, `cell_types`. -/
abbrev VtkAcc : Type := Option (List Q3) × Option Int × Option (List Int)

/-- The `while i < len(lines)` scan of `_vtk_ascii_parse_points_and_cells`.
Fuel `lines.length + 1` always suffices: every iteration consumes at least
one line. -/
def vtkLoop (pf : String → Option ℚ) (pi : String → Option Int) :
    Nat → List String → VtkAcc → Except Unit VtkAcc
  | 0, _, acc => .ok acc
  | _ + 1, [], acc => .ok acc
  | fuel + 1, line :: rest, (p, c, t) =>
    let l := pyStrip line
    if isPointsLine line ∧ (pySplitWs l).length ≥ 2 then
      let n : Int := ((pySplitWs l).drop 1).head?.bind pi |>.getD 0
      let fl := collectFloats pf rest (n * 3) []
      match buildPts fl.1 (min (fl.1.length : Int) (n * 3)) with
      | .error e => .error e
      | .ok pts => vtkLoop pf pi fuel fl.2 (some pts, c, t)
    else
      let c' : Option Int :=
        if isCellsLine line then
          match pySplitWs l with
          | _ :: x :: _ => pi x
          | _ => c
        else c
      if isCellTypesLine line then
        let nt : Int :=
          match pySplitWs l with
          | _ :: x :: _ => (pi x).getD 0
          | _ => 0
        let ti := collectInts pi rest nt []
        vtkLoop pf pi fuel ti.2 (p, c', some ti.1)
      else vtkLoop pf pi fuel rest (p, c', t)

/-- `_vtk_ascii_parse_points_and_cells` over the file's lines. -/
def vtk_ascii_parse_points_and_cells (pf : String → Option ℚ)
    (pi : String → Option Int) (lines : List String) : Except Unit VtkAcc :=
  vtkLoop pf pi (lines.length + 1) lines (none, none, none)

/-- Unsigned decimal literal parser (structural, so that concrete parses
reduce in the kernel). -/
def parseDecNat (s : String) : Option Nat :=
  if s.data ≠ [] ∧ s.data.all Char.isDigit then
    some (s.data.foldl (fun acc c => acc * 10 + (c.toNat - Char.toNat '0')) 0)
  else none

/-- Concrete stand-in for Python `float(token)` on the unsigned decimal
integer literals used in witnesses (the theorems about the parser are
stated for arbitrary `pf`). -/
def parseDec (s : String) : Option ℚ :=
  (parseDecNat s).map fun n => (n : ℚ)

/-- Concrete stand-in for Python `int(token)` on unsigned decimal literals. -/
def parseDecInt (s : String) : Option Int :=
  (parseDecNat s).map fun n => (n : Int)

example :
    vtk_ascii_parse_points_and_cells parseDec parseDecInt
      ["# vtk DataFile Version 2.0", "My Tetrahedron", "ASCII",
       "DATASET UNSTRUCTURED_GRID", "POINTS 4 float",
       "0 0 0", "1 0 0", "0 1 0", "0 0 1",
       "CELLS 1 5", "4 0 1 2 3", "CELL_TYPES 1", "10"] =
    .ok (some [(0, 0, 0), (1, 0, 0), (0, 1, 0), (0, 0, 1)], some 1, some [10]) := rfl

example :
    vtk_ascii_parse_points_and_cells parseDec parseDecInt
      ["POINTS 2 float", "0 0 0 1"] = .error () := rfl

/-! ### `mesh_inspector._bounds_from_points`, `get_mesh_bounding_box`,
`mesh_stats`

Source: `src/sofa_mcp/architect/mesh_inspector.py`, lines 127-162 and
189-251. The fold starts from `float("inf")` / `float("-inf")`, modelled by
`⊤` / `⊥` of `WithBot (WithTop ℚ)`. The `trimesh.load` call is external,
so its outcome is an explicit input. -/

/-- Extended rationals: `ℚ` plus the two infinities. -/
abbrev ExtQ : Type := WithBot (WithTop ℚ)

/-- A finite coordinate as an extended rational. -/
def toExtQ (q : ℚ) : ExtQ :=
  ((q : WithTop ℚ) : ExtQ)

/-- The `{"min": mins, "max": maxs}` pair of three-axis extrema. -/
structure PyBounds where
  min0 : ExtQ
  min1 : ExtQ
  min2 : ExtQ
  max0 : ExtQ
  max1 : ExtQ
  max2 : ExtQ

/-- `mins = [inf]*3, maxs = [-inf]*3`. -/
def boundsInit : PyBounds :=
  ⟨⊤, ⊤, ⊤, ⊥, ⊥, ⊥⟩

/-- One iteration of the `for p in points` loop. -/
def boundsStep (b : PyBounds) (p : Q3) : PyBounds :=
  { min0 := min b.min0 (toExtQ p.1)
    min1 := min b.min1 (toExtQ p.2.1)
    min2 := min b.min2 (toExtQ p.2.2)
    max0 := max b.max0 (toExtQ p.1)
    max1 := max b.max1 (toExtQ p.2.1)
    max2 := max b.max2 (toExtQ p.2.2) }

/-- `_bounds_from_points(points)`. -/
def bounds_from_points (pts : List Q3) : PyBounds :=
  pts.foldl boundsStep boundsInit

/-- Outcome of the external `trimesh.load`: an object exposing `bounds`
(two axis-extreme triples), an object without usable `bounds`, or a raised
exception with message `msg`. -/
inductive TrimeshLoad where
  | bounds (mn mx : Q3)
  | nobounds
  | fails (msg : String)

/-- Coordinate triples as reported by a loaded trimesh object. -/
def q3ToBounds (mn mx : Q3) : PyBounds :=
  ⟨toExtQ mn.1, toExtQ mn.2.1, toExtQ mn.2.2, toExtQ mx.1, toExtQ mx.2.1, toExtQ mx.2.2⟩

/-- Dictionary returned by `get_mesh_bounding_box`: the box, or an
`{"error": ...}` dictionary. -/
structure BBoxOut where
  box : Option PyBounds := none
  errorMsg : Option String := none

/-- `get_mesh_bounding_box(mesh_path)`. Note that when the ASCII-VTK
fallback parse raises, the exception escapes: the first parse (inside the
`try`) is caught, but the identical re-parse inside the `except` handler is
not protected. -/
def get_mesh_bounding_box (pf : String → Option ℚ) (pi : String → Option Int)
    (tm : TrimeshLoad) (lines : List String) : Except Unit BBoxOut :=
  match tm with
  | .bounds mn mx => .ok { box := some (q3ToBounds mn mx) }
  | .nobounds =>
    match vtk_ascii_parse_points_and_cells pf pi lines with
    | .error e => .error e
    | .ok (some (p :: ps), _, _) => .ok { box := some (bounds_from_points (p :: ps)) }
    | .ok _ => .ok { errorMsg := some "Could not compute bounds" }
  | .fails msg =>
    match vtk_ascii_parse_points_and_cells pf pi lines with
    | .error e => .error e
    | .ok (some (p :: ps), _, _) => .ok { box := some (bounds_from_points (p :: ps)) }
    | .ok _ => .ok { errorMsg := some msg }

/-- Dictionary returned by `mesh_stats` (fields the claims mention; the
purely presentational fields — path echo, topology label, extent/diagonal —
are omitted). -/
structure StatsOut where
  errorMsg : Option String := none
  bounding_box : Option PyBounds := none
  point_count : Option Nat := none
  cell_count : Option Int := none

/-- `mesh_stats(mesh_path)` for an existing regular file with extension
`ext` and contents `lines` (a missing path returns its early error
dictionary before any of the modelled code runs). `inspect_mesh_topology`
only produces a label string and is fully exception-wrapped, so it is not
modelled. For a non-`.vtk`/`.msh` extension the vertex/face-count branch is
fully wrapped in `try/except` and only adds echo fields, so it is omitted. -/
def mesh_stats (pf : String → Option ℚ) (pi : String → Option Int)
    (ext : String) (tm : TrimeshLoad) (lines : List String) : Except Unit StatsOut :=
  match get_mesh_bounding_box pf pi tm lines with
  | .error e => .error e
  | .ok bb =>
    match bb.errorMsg with
    | some m => .ok { errorMsg := some m }
    | none =>
      if ext = ".vtk" ∨ ext = ".msh" then
        match vtk_ascii_parse_points_and_cells pf pi lines with
        | .error e => .error e
        | .ok (p, c, _) =>
          .ok { bounding_box := bb.box, point_count := p.map List.length, cell_count := c }
      else .ok { bounding_box := bb.box }

/-! ## Helper lemmas -/

theorem execScript_prints (pre : List MStmt) (hpre : ∀ st ∈ pre, ∃ s, st = .print s) :
    ∀ out, execScript pre out = (out ++ scriptStdout pre, none) := by
  induction pre with
  | nil => intro out; simp [execScript, scriptStdout]
  | cons st rest ih =>
    intro out
    obtain ⟨s, rfl⟩ := hpre st (by simp)
    rw [show execScript (MStmt.print s :: rest) out = execScript rest (out ++ s ++ "\n") from rfl,
      ih (fun st hst => hpre st (by simp [hst])) (out ++ s ++ "\n")]
    simp [scriptStdout, String.append_assoc]

theorem execScript_raises (pre post : List MStmt) (m : String)
    (hpre : ∀ st ∈ pre, ∃ s, st = .print s) :
    ∀ out, execScript (pre ++ .raiseE m :: post) out = (out ++ scriptStdout pre, some m) := by
  induction pre with
  | nil => intro out; simp [execScript, scriptStdout]
  | cons st rest ih =>
    intro out
    obtain ⟨s, rfl⟩ := hpre st (by simp)
    rw [List.cons_append,
      show execScript (MStmt.print s :: (rest ++ MStmt.raiseE m :: post)) out =
        execScript (rest ++ MStmt.raiseE m :: post) (out ++ s ++ "\n") from rfl,
      ih (fun st hst => hpre st (by simp [hst])) (out ++ s ++ "\n")]
    simp [scriptStdout, String.append_assoc]

/-! ## Claim C4 -/

/-- C4: `run_math_script` returns exactly the text the script wrote to
standard output when the script runs to completion without raising, and
returns the exception's formatted message (not the captured output) when
the script raises partway. -/
theorem c4_run_math_script (pre post : List MStmt) (m : String)
    (hpre : ∀ st ∈ pre, ∃ s, st = .print s) :
    run_math_script pre = scriptStdout pre ∧
    run_math_script (pre ++ .raiseE m :: post) = m := by
  constructor
  · rw [run_math_script, execScript_prints pre hpre ""]
    simp
  · rw [run_math_script, execScript_raises pre post m hpre ""]

/-- Witness for C4 at a concrete script. -/
theorem c4_witness :
    run_math_script [.print "4"] = scriptStdout [.print "4"] ∧
    run_math_script ([.print "4"] ++ .raiseE "division by zero" :: []) = "division by zero" :=
  c4_run_math_script [.print "4"] [] "division by zero"
    (by intro st hst; exact ⟨"4", by simpa using hst⟩)

/-! ## Claim C7 -/

/-- C7: when the validation or summary subprocess exceeds the timeout, the
call is abandoned and a dictionary with `success=False` and a timeout error
is returned, with no partial results (no stdout, no payload). -/
theorem c7_timeout_reported (α : Type) (jp : String → Except String α) (flag : α → Bool) :
    validate_scene .timeout =
      { success := false, error := some "Timeout", stdout := none
        message := "The scene took too long to initialize (possible infinite loop or massive mesh)." } ∧
    summarize_scene jp .timeout =
      .fail "The scene took too long to build (possible infinite loop or massive mesh)." "Timeout" ∧
    (summarize_scene jp .timeout).successFlag flag = false :=
  ⟨rfl, rfl, rfl⟩

/-! ## Claim C10 -/

theorem find_nth_ok_of_one_le (hay nd : String) (n : Int) (hn : ¬ n < 1) :
    find_nth hay nd n = .ok (findNthLoop hay nd n.toNat 0) := by
  simp [find_nth, hn]

theorem applyOp_ne_exn (t : String) (o : PatchOp) : applyOp t o ≠ .error .exn := by
  unfold applyOp
  split
  case h_2 => simp
  case h_1 s =>
    split
    · simp
    · split
      · split
        · split
          · split
            · simp
            · split
              · simp
              · simp
          · simp
        · simp
      · split
        · split
          · split
            · split
              · simp
              · rename_i hn
                rw [find_nth_ok_of_one_le _ _ _ hn]
                split
                · rename_i heq
                  simp at heq
                · split <;> simp
            · simp
          · simp
        · split
          · split
            · simp
            · simp
          · simp

theorem applyElems_ne_exn (ops : List OpElem) : ∀ t, applyElems t ops ≠ .error .exn := by
  induction ops with
  | nil => intro t h; simp [applyElems] at h
  | cons e rest ih =>
    intro t h
    cases e with
    | nonDict => simp [applyElems] at h
    | dict o =>
      simp only [applyElems] at h
      cases happ : applyOp t o with
      | error f =>
        rw [happ] at h
        simp only [Except.error.injEq] at h
        exact applyOp_ne_exn t o (by rw [happ, h])
      | ok t' =>
        rw [happ] at h
        dsimp only at h
        cases happ2 : applyElems t' rest with
        | error f =>
          rw [happ2] at h
          simp only [Except.error.injEq] at h
          exact ih t' (by rw [happ2, h])
        | ok p => rw [happ2] at h; simp at h

/-- C10: the `ValueError` branch of `_find_nth` is unreachable from
`patch_scene`: every insert call site validates `occurrence ≥ 1` first, so
`patch_scene` never raises — on every file state and every patch argument
it returns a dictionary. -/
theorem c10_patch_scene_never_raises (file : Option String) (arg : PatchArg) :
    ∃ r, patch_scene file arg = .ok r := by
  unfold patch_scene
  dsimp only
  repeat' split
  all_goals
    first
      | exact ⟨_, rfl⟩
      | exact absurd (by assumption) (applyElems_ne_exn _ _)

/-! ## Claims C1 and C8 -/

theorem patch_scene_many_eval (t : String) (ops : List OpElem)
    (hsz : t.utf8ByteSize ≤ 1000000) (hne : ops ≠ []) :
    patch_scene (some t) (.many ops) =
      match applyElems t ops with
      | .error .exn => .error ()
      | .error (.dict m e) =>
        .ok ({ success := false, message := m, error := some e }, some t)
      | .ok (updated, k) =>
        if updated = t then
          .ok ({ success := false, message := "No changes applied."
                 error := some "Patch operations resulted in no modifications" }, some t)
        else
          .ok ({ success := true, message := "Scene patched.", applied_ops := some k },
               some updated) := by
  have h1 : ¬ (t.utf8ByteSize > 1000000) := by omega
  have h2 : ops.isEmpty = false := by
    cases ops
    · exact absurd rfl hne
    · rfl
  unfold patch_scene load_scene
  simp only [h1, if_false, h2]
  rfl

/-- C8: a patch whose operations all apply but whose combined result equals
the original text yields `success=False` with the "no changes" error, and
the file is not rewritten. -/
theorem c8_no_changes_not_rewritten (t : String) (ops : List OpElem) (k : Nat)
    (hsz : t.utf8ByteSize ≤ 1000000) (hne : ops ≠ [])
    (happ : applyElems t ops = .ok (t, k)) :
    patch_scene (some t) (.many ops) =
      .ok ({ success := false, message := "No changes applied."
             error := some "Patch operations resulted in no modifications" }, some t) := by
  rw [patch_scene_many_eval t ops hsz hne, happ]
  simp

/-- Witness for C8: an all-successful replace of `"a"` by `"a"` changes
nothing, fails with the no-changes error, and leaves the file intact. -/
theorem c8_witness :
    applyElems "abc" [.dict { op := some (.str "replace"), old := some (.str "a")
                              new := some (.str "a") }] = .ok ("abc", 1) ∧
    patch_scene (some "abc")
      (.many [.dict { op := some (.str "replace"), old := some (.str "a")
                      new := some (.str "a") }]) =
      .ok ({ success := false, message := "No changes applied."
             error := some "Patch operations resulted in no modifications" }, some "abc") :=
  ⟨rfl, c8_no_changes_not_rewritten "abc" _ 1 (by decide) (by decide) rfl⟩

theorem applyElems_append (l1 l2 : List OpElem) : ∀ t,
    applyElems t (l1 ++ l2) =
      match applyElems t l1 with
      | .error f => .error f
      | .ok (t1, k1) =>
        match applyElems t1 l2 with
        | .error f => .error f
        | .ok (t2, k2) => .ok (t2, k1 + k2) := by
  induction l1 with
  | nil =>
    intro t
    dsimp only [List.nil_append, applyElems]
    cases h : applyElems t l2 with
    | error f => rfl
    | ok p => cases p; simp
  | cons e l1' ih =>
    intro t
    cases e with
    | nonDict => rfl
    | dict o =>
      rw [List.cons_append]
      simp only [applyElems]
      cases ha : applyOp t o with
      | error f => rfl
      | ok t' =>
        dsimp only
        rw [ih t']
        cases h1 : applyElems t' l1' with
        | error f => rfl
        | ok p =>
          obtain ⟨t1, k1⟩ := p
          dsimp only
          cases h2 : applyElems t1 l2 with
          | error f => rfl
          | ok q =>
            obtain ⟨t2, k2⟩ := q
            dsimp only
            rw [Nat.add_right_comm]

/-- A patch operation that is doomed on text `t` in exactly the ways claim
C1 describes: a replace whose `old` string is absent from `t`, or an insert
whose anchor is absent at the (validly given) requested occurrence. -/
def opFailsTarget (t : String) (o : PatchOp) : Prop :=
  (opNameVal o = .str "replace" ∧
    ∃ old, o.old.getD .pynone = .str old ∧ strContains t old = false) ∨
  ((opNameVal o = .str "insert_before" ∨ opNameVal o = .str "insert_after") ∧
    ∃ anchor n, o.anchor.getD .pynone = .str anchor ∧
      o.occurrence.getD (.int 1) = .int n ∧ 1 ≤ n ∧
      find_nth t anchor n = .ok (-1))

theorem applyOp_fails_of_target (t : String) (o : PatchOp) (h : opFailsTarget t o) :
    ∃ m e, applyOp t o = .error (.dict m e) := by
  rcases h with ⟨hname, old, hold, hmem⟩ | ⟨hname, anchor, n, hanch, hocc, hn, hfind⟩
  · unfold applyOp
    rw [hname]
    dsimp only
    rw [if_neg (by decide : ¬ ("replace" : String) = ""), if_pos rfl, hold]
    cases hnew : o.new.getD .pynone with
    | str nw =>
      dsimp only
      cases hcnt : o.count.getD (.int 1) with
      | int c =>
        dsimp only
        by_cases hc : c < 1
        · rw [if_pos hc]; exact ⟨_, _, rfl⟩
        · rw [if_neg hc, if_pos (by simp [hmem])]; exact ⟨_, _, rfl⟩
      | str s2 => exact ⟨_, _, rfl⟩
      | pynone => exact ⟨_, _, rfl⟩
      | other b => exact ⟨_, _, rfl⟩
    | int i => exact ⟨_, _, rfl⟩
    | pynone => exact ⟨_, _, rfl⟩
    | other b => exact ⟨_, _, rfl⟩
  · rcases hname with hname | hname <;>
    · unfold applyOp
      rw [hname]
      dsimp only
      rw [if_neg (by decide), if_neg (by decide),
        if_pos (by first | exact Or.inl rfl | exact Or.inr rfl), hanch]
      cases htxt : o.text.getD .pynone with
      | str tx =>
        dsimp only
        rw [hocc]
        dsimp only
        rw [if_neg (by omega : ¬ n < 1), hfind]
        dsimp only
        exact ⟨_, _, by rw [if_pos rfl]⟩
      | int i => exact ⟨_, _, rfl⟩
      | pynone => exact ⟨_, _, rfl⟩
      | other b => exact ⟨_, _, rfl⟩

/-- C1: if, while processing a patch list, some operation is a replace
whose `old` is absent from the current text or an insert whose anchor is
absent at the requested occurrence, then `patch_scene` returns
`success=False` and the scene file is left exactly as it was. -/
theorem c1_failed_patch_not_applied (t t' : String) (pre rest : List OpElem)
    (o : PatchOp) (k : Nat)
    (hsz : t.utf8ByteSize ≤ 1000000)
    (hpre : applyElems t pre = .ok (t', k))
    (hfail : opFailsTarget t' o) :
    ∃ res : PResult,
      patch_scene (some t) (.many (pre ++ .dict o :: rest)) = .ok (res, some t) ∧
      res.success = false := by
  obtain ⟨m, e, hop⟩ := applyOp_fails_of_target t' o hfail
  have happ : applyElems t (pre ++ .dict o :: rest) = .error (.dict m e) := by
    rw [applyElems_append, hpre]
    dsimp only
    simp only [applyElems, hop]
  have hne : pre ++ .dict o :: rest ≠ [] := by simp
  rw [patch_scene_many_eval t _ hsz hne, happ]
  exact ⟨_, rfl, rfl⟩

/-- Witness for C1: replacing the absent string `"zzz"` in `"hello"` fails
and leaves the file contents `"hello"` untouched. -/
theorem c1_witness :
    applyElems "hello" [] = .ok ("hello", 0) ∧
    opFailsTarget "hello"
      { op := some (.str "replace"), old := some (.str "zzz"), new := some (.str "y") } ∧
    ∃ res : PResult,
      patch_scene (some "hello")
        (.many ([] ++ .dict { op := some (.str "replace"), old := some (.str "zzz")
                              new := some (.str "y") } :: [])) =
        .ok (res, some "hello") ∧ res.success = false :=
  ⟨rfl, Or.inl ⟨by decide, "zzz", rfl, by decide⟩,
    c1_failed_patch_not_applied "hello" "hello" [] [] _ 0 (by decide) rfl
      (Or.inl ⟨by decide, "zzz", rfl, by decide⟩)⟩

/-! ## Claim C2 -/

/-- C2 counterexample: in the file `"Xab"`, inserting `"Y"` before the
anchor `"ab"` succeeds, but the anchor does *not* appear "exactly once more
than in the original": it appears once in `"Xab"` and once in `"XYab"`.
Moreover an insert with the empty text and a present anchor does not even
succeed (it returns the "no changes" error). -/
theorem c2_counterexample :
    (patch_scene (some "Xab")
      (.one (.dict { op := some (.str "insert_before"), anchor := some (.str "ab")
                     text := some (.str "Y") })) =
      .ok ({ success := true, message := "Scene patched.", applied_ops := some 1 },
           some "XYab") ∧
    ¬ occCount "XYab" "ab" = occCount "Xab" "ab" + 1) ∧
    patch_scene (some "Xab")
      (.one (.dict { op := some (.str "insert_before"), anchor := some (.str "ab")
                     text := some (.str "") })) =
      .ok ({ success := false, message := "No changes applied."
             error := some "Patch operations resulted in no modifications" },
           some "Xab") :=
  ⟨⟨rfl, by decide⟩, rfl⟩

theorem pyFind_eq_ofNat (hay nd : String) (start : Int) (i : Nat)
    (h : pyFind hay nd start = Int.ofNat i) :
    matchAtL hay.data nd.data i = true ∧ i ≤ hay.data.length := by
  unfold pyFind at h
  split at h
  · rename_i j hh
    have hji : j = i := Int.ofNat.inj h
    subst hji
    have hmem : j ∈ (List.range (hay.data.length + 1)).filter fun j =>
        decide (start ≤ Int.ofNat j) && matchAtL hay.data nd.data j :=
      List.mem_of_mem_head? hh
    rw [List.mem_filter] at hmem
    obtain ⟨hr, hp⟩ := hmem
    refine ⟨by simpa using (Bool.and_elim_right hp), ?_⟩
    have := List.mem_range.mp hr
    omega
  · exact absurd h (by intro hc; simp only [Int.ofNat_eq_coe] at hc; omega)

theorem findNthLoop_result (hay nd : String) :
    ∀ (k : Nat) (start r : Int), findNthLoop hay nd k start = r →
      r = -1 ∨ ∃ s, pyFind hay nd s = r := by
  intro k
  induction k with
  | zero => intro start r h; exact Or.inl h.symm
  | succ k ih =>
    intro start r h
    unfold findNthLoop at h
    by_cases h1 : pyFind hay nd start = -1
    · rw [if_pos h1] at h
      exact Or.inl h.symm
    · rw [if_neg h1] at h
      by_cases h2 : k = 0
      · rw [if_pos h2] at h
        exact Or.inr ⟨start, h⟩
      · rw [if_neg h2] at h
        exact ih _ r h

theorem find_nth_found (t a : String) (n : Int) (i : Nat)
    (h : find_nth t a n = .ok (Int.ofNat i)) :
    matchAtL t.data a.data i = true ∧ i ≤ t.data.length := by
  unfold find_nth at h
  by_cases hn : n < 1
  · rw [if_pos hn] at h; exact absurd h (by simp)
  · rw [if_neg hn] at h
    simp only [Except.ok.injEq] at h
    rcases findNthLoop_result t a n.toNat 0 _ h with h1 | ⟨s, hs⟩
    · exact absurd h1 (by intro hc; simp only [Int.ofNat_eq_coe] at hc; omega)
    · exact pyFind_eq_ofNat t a s i hs

theorem applyOp_insert_eval (t anchor text : String) (n : Int) (i : Nat)
    (hn : 1 ≤ n) (hfind : find_nth t anchor n = .ok (Int.ofNat i)) :
    (applyOp t { op := some (.str "insert_before"), anchor := some (.str anchor)
                 text := some (.str text), occurrence := some (.int n) } =
      .ok (strTake t i ++ text ++ strDrop t i)) ∧
    (applyOp t { op := some (.str "insert_after"), anchor := some (.str anchor)
                 text := some (.str text), occurrence := some (.int n) } =
      .ok (strTake t (i + anchor.data.length) ++ text ++
           strDrop t (i + anchor.data.length))) := by
  have hne1 : ¬ n < 1 := by omega
  have hneg : ¬ (Int.ofNat i = -1) := by
    intro hc; simp only [Int.ofNat_eq_coe] at hc; omega
  have harith : (Int.ofNat i + (anchor.data.length : Int)).toNat = i + anchor.data.length := by
    simp only [Int.ofNat_eq_coe]; omega
  constructor
  · simp only [applyOp, opNameVal, Option.getD_some, PyVal.truthy]
    simp [hne1, hfind, hneg, Int.toNat_ofNat]
  · simp only [applyOp, opNameVal, Option.getD_some, PyVal.truthy]
    simp [hne1, hfind, hneg, harith]
    have h2 : ((i : Int) + (anchor.length : Int)).toNat = i + anchor.length := by omega
    rw [h2]

theorem patch_scene_one_eq (file : Option String) (v : OpElem) :
    patch_scene file (.one v) = patch_scene file (.many [v]) := rfl

/-- C2 (amended): when the scene file's text contains the insert anchor at
the requested occurrence (index `i`) and the insertion text is non-empty,
the `insert_before`/`insert_after` operation succeeds and the new file is
the old text with the inserted text placed exactly at that anchor
occurrence — immediately before it for `insert_before`, immediately after
it for `insert_after`. (The anchor-occurrence count is not in general one
more than in the original; see `c2_counterexample`.) -/
theorem c2_insert_places_text_adjacent (t anchor text : String) (n : Int)
    (i : Nat) (opn : String)
    (hsz : t.utf8ByteSize ≤ 1000000)
    (hopn : opn = "insert_before" ∨ opn = "insert_after")
    (hn : 1 ≤ n) (htext : text ≠ "")
    (hfind : find_nth t anchor n = .ok (Int.ofNat i)) :
    ∃ u : String,
      patch_scene (some t)
        (.one (.dict { op := some (.str opn), anchor := some (.str anchor)
                       text := some (.str text), occurrence := some (.int n) })) =
        .ok ({ success := true, message := "Scene patched.", applied_ops := some 1 },
             some u) ∧
      ((opn = "insert_before" ∧ u = strTake t i ++ text ++ strDrop t i) ∨
       (opn = "insert_after" ∧
        u = strTake t (i + anchor.data.length) ++ text ++
            strDrop t (i + anchor.data.length))) ∧
      anchor.data.isPrefixOf (t.data.drop i) = true ∧
      t.data.take (i + anchor.data.length) = t.data.take i ++ anchor.data := by
  obtain ⟨hmatch, hile⟩ := find_nth_found t anchor n i hfind
  have hmatch' : anchor.data.isPrefixOf (t.data.drop i) = true := by
    unfold matchAtL at hmatch; exact hmatch
  have hpfx : anchor.data <+: t.data.drop i := (List.isPrefixOf_iff_prefix).mp hmatch'
  have halen : i + anchor.data.length ≤ t.data.length := by
    have h1 := hpfx.length_le
    rw [List.length_drop] at h1
    omega
  have htake : t.data.take (i + anchor.data.length) = t.data.take i ++ anchor.data := by
    obtain ⟨restL, hrest⟩ := hpfx
    rw [List.take_add, ← hrest, List.take_left]
  have htextlen : 1 ≤ text.data.length := by
    rcases text with ⟨td⟩
    cases td
    · exact absurd rfl htext
    · simp
  have hne2 : ∀ j : Nat, j ≤ t.data.length → ¬ (strTake t j ++ text ++ strDrop t j = t) := by
    intro j hj he
    have hd := congrArg String.data he
    simp only [String.data_append, strTake, strDrop] at hd
    have hdl := congrArg List.length hd
    simp only [List.length_append, List.length_take, List.length_drop] at hdl
    omega
  rcases hopn with rfl | rfl
  · have hop := (applyOp_insert_eval t anchor text n i hn hfind).1
    have happ : applyElems t
        [.dict { op := some (.str "insert_before"), anchor := some (.str anchor)
                 text := some (.str text), occurrence := some (.int n) }] =
        .ok (strTake t i ++ text ++ strDrop t i, 1) := by
      simp [applyElems, hop]
    refine ⟨strTake t i ++ text ++ strDrop t i, ?_, Or.inl ⟨rfl, rfl⟩, hmatch', htake⟩
    rw [patch_scene_one_eq, patch_scene_many_eval t _ hsz (by simp), happ]
    dsimp only
    rw [if_neg (hne2 i (by omega))]
  · have hop := (applyOp_insert_eval t anchor text n i hn hfind).2
    have happ : applyElems t
        [.dict { op := some (.str "insert_after"), anchor := some (.str anchor)
                 text := some (.str text), occurrence := some (.int n) }] =
        .ok (strTake t (i + anchor.data.length) ++ text ++
             strDrop t (i + anchor.data.length), 1) := by
      simp [applyElems, hop]
    refine ⟨strTake t (i + anchor.data.length) ++ text ++
        strDrop t (i + anchor.data.length), ?_, Or.inr ⟨rfl, rfl⟩, hmatch', htake⟩
    rw [patch_scene_one_eq, patch_scene_many_eval t _ hsz (by simp), happ]
    dsimp only
    rw [if_neg (hne2 _ halen)]

/-- Witness for C2 (amended) at a concrete file: inserting `"Y"` before the
anchor `"ab"` of `"Xab"` (occurrence 1, found at index 1). -/
theorem c2_insert_witness :
    "Xab".utf8ByteSize ≤ 1000000 ∧
    (1 : Int) ≤ 1 ∧ ("Y" : String) ≠ "" ∧
    find_nth "Xab" "ab" 1 = .ok (Int.ofNat 1) ∧
    ∃ u : String,
      patch_scene (some "Xab")
        (.one (.dict { op := some (.str "insert_before"), anchor := some (.str "ab")
                       text := some (.str "Y"), occurrence := some (.int 1) })) =
        .ok ({ success := true, message := "Scene patched.", applied_ops := some 1 },
             some u) ∧
      ((("insert_before" : String) = "insert_before" ∧
        u = strTake "Xab" 1 ++ "Y" ++ strDrop "Xab" 1) ∨
       (("insert_before" : String) = "insert_after" ∧
        u = strTake "Xab" (1 + "ab".data.length) ++ "Y" ++
            strDrop "Xab" (1 + "ab".data.length))) ∧
      "ab".data.isPrefixOf ("Xab".data.drop 1) = true ∧
      "Xab".data.take (1 + "ab".data.length) = "Xab".data.take 1 ++ "ab".data :=
  ⟨by decide, by decide, by decide, rfl,
    c2_insert_places_text_adjacent "Xab" "ab" "Y" 1 1 "insert_before"
      (by decide) (Or.inl rfl) (by decide) (by decide) rfl⟩

/-! ## Claim C9 -/

theorem lexLe_total : ∀ a b : List Char, lexLe a b = true ∨ lexLe b a = true := by
  intro a
  induction a with
  | nil => intro b; exact Or.inl rfl
  | cons x xs ih =>
    intro b
    cases b with
    | nil => exact Or.inr rfl
    | cons y ys =>
      by_cases h1 : x.toNat < y.toNat
      · left; simp [lexLe, h1]
      · by_cases h2 : y.toNat < x.toNat
        · right; simp [lexLe, h2]
        · rcases ih ys with h | h
          · left; simp [lexLe, h1, h2, h]
          · right; simp [lexLe, h1, h2, h]

theorem lexLe_trans : ∀ a b c : List Char,
    lexLe a b = true → lexLe b c = true → lexLe a c = true := by
  intro a
  induction a with
  | nil => intro b c _ _; rfl
  | cons x xs ih =>
    intro b c hab hbc
    cases b with
    | nil => simp [lexLe] at hab
    | cons y ys =>
      cases c with
      | nil => simp [lexLe] at hbc
      | cons z zs =>
        simp only [lexLe] at hab hbc ⊢
        split_ifs at hab hbc ⊢ <;>
          first
            | rfl
            | omega
            | exact ih ys zs hab hbc

instance : IsTotal String strLeP :=
  ⟨fun a b => lexLe_total a.data b.data⟩

instance : IsTrans String strLeP :=
  ⟨fun a b c hab hbc => lexLe_trans a.data b.data c.data hab hbc⟩

/-- C9: with a non-empty cached name list and a valid query, the returned
matches are duplicate-free, sorted ascending (code-point lexicographic ≤),
contain at most `limit` entries, and `count` equals their number. -/
theorem c9_search_matches_shape (cacheNames regNames : List String)
    (query : String) (limit : Int)
    (hnames : cacheNames ≠ [])
    (hraw : searchRaw query ≠ "")
    (htok : searchTokens query ≠ [])
    (hlim : 0 ≤ limit) :
    ∃ ms : List String,
      search_sofa_components cacheNames regNames query limit =
        .found (searchRaw query) limit ms.length ms ∧
      ms.Nodup ∧ List.Sorted strLeP ms ∧ (ms.length : Int) ≤ limit := by
  unfold search_sofa_components
  have h1 : cacheNames.isEmpty = false := by
    cases cacheNames
    · exact absurd rfl hnames
    · rfl
  have h2 : (searchTokens query).isEmpty = false := by
    cases h : searchTokens query
    · exact absurd h htok
    · rfl
  simp only [h1, Bool.false_eq_true, if_false, h2]
  rw [if_neg hraw]
  have hsorted : List.Sorted strLeP
      ((List.insertionSort strLeP cacheNames.dedup).filter (searchMatches query)) :=
    List.Pairwise.filter _ (List.sorted_insertionSort strLeP cacheNames.dedup)
  have hnodup : ((List.insertionSort strLeP cacheNames.dedup).filter
      (searchMatches query)).Nodup :=
    List.Nodup.filter _
      ((List.perm_insertionSort strLeP cacheNames.dedup).nodup_iff.mpr
        (List.nodup_dedup cacheNames))
  have htakeL : ∀ l : List String, pyTakeL limit l = l.take limit.toNat := by
    intro l; unfold pyTakeL; rw [if_pos hlim]
  refine ⟨pyTakeL limit ((List.insertionSort strLeP cacheNames.dedup).filter
      (searchMatches query)), rfl, ?_, ?_, ?_⟩
  · rw [htakeL]
    exact List.Nodup.sublist (List.take_sublist _ _) hnodup
  · rw [htakeL]
    exact List.Pairwise.sublist (List.take_sublist _ _) hsorted
  · rw [htakeL]
    have hlen := List.length_take_le limit.toNat
      ((List.insertionSort strLeP cacheNames.dedup).filter (searchMatches query))
    have h3 : (limit.toNat : Int) = limit := Int.toNat_of_nonneg hlim
    omega

/-- Witness for C9 at a concrete cache and query. -/
theorem c9_witness :
    (["Beta", "Alpha", "Beta"] : List String) ≠ [] ∧
    searchRaw "alp" ≠ "" ∧ searchTokens "alp" ≠ [] ∧ (0 : Int) ≤ 50 ∧
    ∃ ms : List String,
      search_sofa_components ["Beta", "Alpha", "Beta"] [] "alp" 50 =
        .found (searchRaw "alp") 50 ms.length ms ∧
      ms.Nodup ∧ List.Sorted strLeP ms ∧ (ms.length : Int) ≤ 50 :=
  ⟨by decide, by decide, by decide, by decide,
    c9_search_matches_shape ["Beta", "Alpha", "Beta"] [] "alp" 50
      (by decide) (by decide) (by decide) (by decide)⟩

/-! ## Claim C6 -/

theorem boundsFold_component (g : Q3 → ℚ) (op : ExtQ → ExtQ → ExtQ)
    (sel : PyBounds → ExtQ)
    (hsel : ∀ b p, sel (boundsStep b p) = op (sel b) (toExtQ (g p))) :
    ∀ (pts : List Q3) (b : PyBounds),
      sel (pts.foldl boundsStep b) = pts.foldl (fun a p => op a (toExtQ (g p))) (sel b) := by
  intro pts
  induction pts with
  | nil => intro b; rfl
  | cons p ps ih =>
    intro b
    rw [List.foldl_cons, List.foldl_cons, ih, hsel]

theorem toExtQ_min (a b : ℚ) : min (toExtQ a) (toExtQ b) = toExtQ (min a b) := by
  unfold toExtQ
  rw [WithTop.coe_min, WithBot.coe_min]

theorem toExtQ_max (a b : ℚ) : max (toExtQ a) (toExtQ b) = toExtQ (max a b) := by
  unfold toExtQ
  rw [WithTop.coe_max, WithBot.coe_max]

theorem foldl_min_coe (l : List ℚ) : ∀ q : ℚ,
    l.foldl (fun (a : ExtQ) x => min a (toExtQ x)) (toExtQ q) = toExtQ (l.foldl min q) := by
  induction l with
  | nil => intro q; rfl
  | cons x xs ih =>
    intro q
    rw [List.foldl_cons, List.foldl_cons, toExtQ_min, ih]

theorem foldl_max_coe (l : List ℚ) : ∀ q : ℚ,
    l.foldl (fun (a : ExtQ) x => max a (toExtQ x)) (toExtQ q) = toExtQ (l.foldl max q) := by
  induction l with
  | nil => intro q; rfl
  | cons x xs ih =>
    intro q
    rw [List.foldl_cons, List.foldl_cons, toExtQ_max, ih]

theorem foldl_min_spec (l : List ℚ) : ∀ q : ℚ,
    l.foldl min q ∈ q :: l ∧ ∀ c ∈ q :: l, l.foldl min q ≤ c := by
  induction l with
  | nil => intro q; simp
  | cons x xs ih =>
    intro q
    obtain ⟨hmem, hle⟩ := ih (min q x)
    rw [List.mem_cons] at hmem
    constructor
    · rw [List.foldl_cons, List.mem_cons, List.mem_cons]
      rcases hmem with h | h
      · rcases min_choice q x with hc | hc
        · exact Or.inl (h.trans hc)
        · exact Or.inr (Or.inl (h.trans hc))
      · exact Or.inr (Or.inr h)
    · intro c hc
      rw [List.foldl_cons]
      rw [List.mem_cons, List.mem_cons] at hc
      rcases hc with rfl | rfl | h
      · exact le_trans (hle _ (List.mem_cons_self _ _)) (min_le_left _ _)
      · exact le_trans (hle _ (List.mem_cons_self _ _)) (min_le_right _ _)
      · exact hle _ (List.mem_cons_of_mem _ h)

theorem foldl_max_spec (l : List ℚ) : ∀ q : ℚ,
    l.foldl max q ∈ q :: l ∧ ∀ c ∈ q :: l, c ≤ l.foldl max q := by
  induction l with
  | nil => intro q; simp
  | cons x xs ih =>
    intro q
    obtain ⟨hmem, hle⟩ := ih (max q x)
    rw [List.mem_cons] at hmem
    constructor
    · rw [List.foldl_cons, List.mem_cons, List.mem_cons]
      rcases hmem with h | h
      · rcases max_choice q x with hc | hc
        · exact Or.inl (h.trans hc)
        · exact Or.inr (Or.inl (h.trans hc))
      · exact Or.inr (Or.inr h)
    · intro c hc
      rw [List.foldl_cons]
      rw [List.mem_cons, List.mem_cons] at hc
      rcases hc with rfl | rfl | h
      · exact le_trans (le_max_left _ _) (hle _ (List.mem_cons_self _ _))
      · exact le_trans (le_max_right _ _) (hle _ (List.mem_cons_self _ _))
      · exact hle _ (List.mem_cons_of_mem _ h)

/-- The least element seen on one axis: `v` is a finite coordinate attained
in `l` and below every coordinate of `l`. -/
def isAxisMin (v : ExtQ) (l : List ℚ) : Prop :=
  ∃ m, v = toExtQ m ∧ m ∈ l ∧ ∀ c ∈ l, m ≤ c

/-- Dually, the greatest element seen on one axis. -/
def isAxisMax (v : ExtQ) (l : List ℚ) : Prop :=
  ∃ m, v = toExtQ m ∧ m ∈ l ∧ ∀ c ∈ l, c ≤ m

theorem axisMin_of_fold (g : Q3 → ℚ) (sel : PyBounds → ExtQ)
    (hsel : ∀ b p, sel (boundsStep b p) = min (sel b) (toExtQ (g p)))
    (htop : sel boundsInit = ⊤)
    (pts : List Q3) (hne : pts ≠ []) :
    isAxisMin (sel (bounds_from_points pts)) (pts.map g) := by
  cases pts with
  | nil => exact absurd rfl hne
  | cons p ps =>
    unfold bounds_from_points
    rw [boundsFold_component g min sel hsel, List.foldl_cons, htop,
      min_eq_right (le_top : toExtQ (g p) ≤ ⊤),
      ← List.foldl_map g (fun (a : ExtQ) x => min a (toExtQ x)), foldl_min_coe]
    obtain ⟨hmem, hle⟩ := foldl_min_spec (ps.map g) (g p)
    refine ⟨_, rfl, ?_, ?_⟩
    · simpa using hmem
    · intro c hc
      exact hle c (by simpa using hc)

theorem axisMax_of_fold (g : Q3 → ℚ) (sel : PyBounds → ExtQ)
    (hsel : ∀ b p, sel (boundsStep b p) = max (sel b) (toExtQ (g p)))
    (hbot : sel boundsInit = ⊥)
    (pts : List Q3) (hne : pts ≠ []) :
    isAxisMax (sel (bounds_from_points pts)) (pts.map g) := by
  cases pts with
  | nil => exact absurd rfl hne
  | cons p ps =>
    unfold bounds_from_points
    rw [boundsFold_component g max sel hsel, List.foldl_cons, hbot,
      max_eq_right (bot_le : ⊥ ≤ toExtQ (g p)),
      ← List.foldl_map g (fun (a : ExtQ) x => max a (toExtQ x)), foldl_max_coe]
    obtain ⟨hmem, hle⟩ := foldl_max_spec (ps.map g) (g p)
    refine ⟨_, rfl, ?_, ?_⟩
    · simpa using hmem
    · intro c hc
      exact hle c (by simpa using hc)

/-- C6: for every non-empty point list, the bounding box computed by
`_bounds_from_points` has, on each axis, `min` equal to the least
coordinate attained and `max` equal to the greatest. -/
theorem c6_bounds_are_vertex_extremes (pts : List Q3) (hne : pts ≠ []) :
    isAxisMin (bounds_from_points pts).min0 (pts.map fun p => p.1) ∧
    isAxisMin (bounds_from_points pts).min1 (pts.map fun p => p.2.1) ∧
    isAxisMin (bounds_from_points pts).min2 (pts.map fun p => p.2.2) ∧
    isAxisMax (bounds_from_points pts).max0 (pts.map fun p => p.1) ∧
    isAxisMax (bounds_from_points pts).max1 (pts.map fun p => p.2.1) ∧
    isAxisMax (bounds_from_points pts).max2 (pts.map fun p => p.2.2) :=
  ⟨axisMin_of_fold _ PyBounds.min0 (fun _ _ => rfl) rfl pts hne,
   axisMin_of_fold _ PyBounds.min1 (fun _ _ => rfl) rfl pts hne,
   axisMin_of_fold _ PyBounds.min2 (fun _ _ => rfl) rfl pts hne,
   axisMax_of_fold _ PyBounds.max0 (fun _ _ => rfl) rfl pts hne,
   axisMax_of_fold _ PyBounds.max1 (fun _ _ => rfl) rfl pts hne,
   axisMax_of_fold _ PyBounds.max2 (fun _ _ => rfl) rfl pts hne⟩

/-- Witness for C6 on the repository's own tetrahedron fixture. -/
theorem c6_witness :
    ([((0 : ℚ), (0 : ℚ), (0 : ℚ)), (1, 0, 0), (0, 1, 0), (0, 0, 1)] : List Q3) ≠ [] ∧
    (isAxisMin (bounds_from_points [((0 : ℚ), (0 : ℚ), (0 : ℚ)), (1, 0, 0), (0, 1, 0), (0, 0, 1)]).min0
        ([((0 : ℚ), (0 : ℚ), (0 : ℚ)), (1, 0, 0), (0, 1, 0), (0, 0, 1)].map fun p => p.1) ∧
      isAxisMin (bounds_from_points [((0 : ℚ), (0 : ℚ), (0 : ℚ)), (1, 0, 0), (0, 1, 0), (0, 0, 1)]).min1
        ([((0 : ℚ), (0 : ℚ), (0 : ℚ)), (1, 0, 0), (0, 1, 0), (0, 0, 1)].map fun p => p.2.1) ∧
      isAxisMin (bounds_from_points [((0 : ℚ), (0 : ℚ), (0 : ℚ)), (1, 0, 0), (0, 1, 0), (0, 0, 1)]).min2
        ([((0 : ℚ), (0 : ℚ), (0 : ℚ)), (1, 0, 0), (0, 1, 0), (0, 0, 1)].map fun p => p.2.2) ∧
      isAxisMax (bounds_from_points [((0 : ℚ), (0 : ℚ), (0 : ℚ)), (1, 0, 0), (0, 1, 0), (0, 0, 1)]).max0
        ([((0 : ℚ), (0 : ℚ), (0 : ℚ)), (1, 0, 0), (0, 1, 0), (0, 0, 1)].map fun p => p.1) ∧
      isAxisMax (bounds_from_points [((0 : ℚ), (0 : ℚ), (0 : ℚ)), (1, 0, 0), (0, 1, 0), (0, 0, 1)]).max1
        ([((0 : ℚ), (0 : ℚ), (0 : ℚ)), (1, 0, 0), (0, 1, 0), (0, 0, 1)].map fun p => p.2.1) ∧
      isAxisMax (bounds_from_points [((0 : ℚ), (0 : ℚ), (0 : ℚ)), (1, 0, 0), (0, 1, 0), (0, 0, 1)]).max2
        ([((0 : ℚ), (0 : ℚ), (0 : ℚ)), (1, 0, 0), (0, 1, 0), (0, 0, 1)].map fun p => p.2.2)) :=
  ⟨by simp,
    c6_bounds_are_vertex_extremes [((0 : ℚ), (0 : ℚ), (0 : ℚ)), (1, 0, 0), (0, 1, 0), (0, 0, 1)]
      (by simp)⟩

/-! ## Claim C5 -/

/-- All parseable float tokens of a block of lines. -/
def totalFloats (pf : String → Option ℚ) (ls : List String) : List ℚ :=
  (ls.map (lineFloats pf)).flatten

theorem collectFloats_len (pf : String → Option ℚ) :
    ∀ (ls : List String) (need : Int) (acc : List ℚ),
      need ≤ (acc.length : Int) + ((totalFloats pf ls).length : Int) →
      need ≤ ((collectFloats pf ls need acc).1.length : Int) := by
  intro ls
  induction ls with
  | nil =>
    intro need acc h
    simp only [totalFloats, List.map_nil, List.flatten_nil, List.length_nil] at h
    simpa [collectFloats] using (by omega : need ≤ (acc.length : Int))
  | cons l rest ih =>
    intro need acc h
    simp only [collectFloats]
    by_cases hcond : (acc.length : Int) < need
    · rw [if_pos hcond]
      apply ih
      simp only [totalFloats, List.map_cons, List.flatten_cons, List.length_append] at h ⊢
      push_cast at h ⊢
      omega
    · rw [if_neg hcond]
      dsimp only
      omega

theorem collectFloats_rest_mem (pf : String → Option ℚ) :
    ∀ (ls : List String) (need : Int) (acc : List ℚ) (x : String),
      x ∈ (collectFloats pf ls need acc).2 → x ∈ ls := by
  intro ls
  induction ls with
  | nil => intro need acc x hx; simp [collectFloats] at hx
  | cons l rest ih =>
    intro need acc x hx
    simp only [collectFloats] at hx
    by_cases hcond : (acc.length : Int) < need
    · rw [if_pos hcond] at hx
      exact List.mem_cons_of_mem _ (ih _ _ _ hx)
    · rw [if_neg hcond] at hx
      simpa using hx

theorem collectInts_rest_mem (pi : String → Option Int) :
    ∀ (ls : List String) (need : Int) (acc : List Int) (x : String),
      x ∈ (collectInts pi ls need acc).2 → x ∈ ls := by
  intro ls
  induction ls with
  | nil => intro need acc x hx; simp [collectInts] at hx
  | cons l rest ih =>
    intro need acc x hx
    simp only [collectInts] at hx
    by_cases hcond : (acc.length : Int) < need
    · rw [if_pos hcond] at hx
      exact List.mem_cons_of_mem _ (ih _ _ _ hx)
    · rw [if_neg hcond] at hx
      simpa using hx

theorem buildPts_ok : ∀ (N : Nat) (fs : List ℚ), 3 * N ≤ fs.length →
    ∃ pts, buildPts fs ((N : Int) * 3) = .ok pts ∧ pts.length = N := by
  intro N
  induction N with
  | zero =>
    intro fs h
    refine ⟨[], ?_, rfl⟩
    rw [buildPts.eq_def, if_pos (by norm_num : ((0 : Nat) : Int) * 3 ≤ 0)]
  | succ N ih =>
    intro fs h
    match fs, h with
    | a :: b :: c :: rest, h =>
      have hrest : 3 * N ≤ rest.length := by
        simp only [List.length_cons] at h
        omega
      obtain ⟨pts, hbp, hlen⟩ := ih rest hrest
      have hm : ¬ (((N + 1 : Nat) : Int) * 3 ≤ 0) := by push_cast; omega
      have hm3 : ((N + 1 : Nat) : Int) * 3 - 3 = (N : Int) * 3 := by push_cast; ring
      refine ⟨(a, b, c) :: pts, ?_, by simp [hlen]⟩
      rw [buildPts.eq_def, if_neg hm]
      dsimp only
      rw [hm3, hbp]

theorem vtkLoop_skip (pf : String → Option ℚ) (pi : String → Option Int) :
    ∀ (pre : List String) (fuel : Nat) (rest0 : List String)
      (p : Option (List Q3)) (c : Option Int) (t : Option (List Int)),
      (∀ l ∈ pre, isPointsLine l = false ∧ isCellTypesLine l = false) →
      pre.length + rest0.length < fuel →
      ∃ c', vtkLoop pf pi fuel (pre ++ rest0) (p, c, t) =
        vtkLoop pf pi (fuel - pre.length) rest0 (p, c', t) := by
  intro pre
  induction pre with
  | nil => intro fuel rest0 p c t _ _; exact ⟨c, by simp⟩
  | cons l pre' ih =>
    intro fuel rest0 p c t hall hlen
    obtain ⟨hlp, hlt⟩ := hall l (List.mem_cons_self _ _)
    cases fuel with
    | zero => omega
    | succ f =>
      have hstep : vtkLoop pf pi (f + 1) (l :: (pre' ++ rest0)) (p, c, t) =
          vtkLoop pf pi f (pre' ++ rest0)
            (p, if isCellsLine l then
                  (match pySplitWs (pyStrip l) with
                   | _ :: x :: _ => pi x
                   | _ => c)
                else c, t) := by
        simp only [vtkLoop, hlp, hlt, Bool.false_eq_true, false_and, if_false]
      rw [List.cons_append, hstep]
      obtain ⟨c', hrec⟩ := ih f rest0 p _ t
        (fun x hx => hall x (List.mem_cons_of_mem _ hx))
        (by simp only [List.length_cons] at hlen; omega)
      refine ⟨c', ?_⟩
      rw [hrec]
      have hf : f - pre'.length = f + 1 - (l :: pre').length := by
        simp only [List.length_cons]; omega
      rw [hf]

theorem vtkLoop_no_points (pf : String → Option ℚ) (pi : String → Option Int) :
    ∀ (fuel : Nat) (lines : List String) (p : Option (List Q3)) (c : Option Int)
      (t : Option (List Int)),
      (∀ l ∈ lines, isPointsLine l = false) →
      ∃ c'' t'', vtkLoop pf pi fuel lines (p, c, t) = .ok (p, c'', t'') := by
  intro fuel
  induction fuel with
  | zero => intro lines p c t _; exact ⟨c, t, rfl⟩
  | succ f ih =>
    intro lines p c t h
    cases lines with
    | nil => exact ⟨c, t, rfl⟩
    | cons l rest =>
      have hlp : isPointsLine l = false := h l (List.mem_cons_self _ _)
      simp only [vtkLoop, hlp, Bool.false_eq_true, false_and, if_false]
      by_cases hct : isCellTypesLine l
      · rw [if_pos hct]
        exact ih _ p _ _
          (fun x hx => h x (List.mem_cons_of_mem _ (collectInts_rest_mem pi _ _ _ _ hx)))
      · rw [if_neg hct]
        exact ih rest p _ t (fun x hx => h x (List.mem_cons_of_mem _ hx))

theorem vtk_parse_points (pf : String → Option ℚ) (pi : String → Option Int)
    (pre body : List String) (hl w ns : String) (ws : List String) (N : Nat)
    (hpre : ∀ l ∈ pre, isPointsLine l = false ∧ isCellTypesLine l = false)
    (hhl : isPointsLine hl = true)
    (hsplit : pySplitWs (pyStrip hl) = w :: ns :: ws)
    (hpi : pi ns = some ((N : Nat) : Int))
    (hbody : ∀ l ∈ body, isPointsLine l = false)
    (hflo : 3 * N ≤ (totalFloats pf body).length) :
    ∃ pts c t,
      vtk_ascii_parse_points_and_cells pf pi (pre ++ hl :: body) = .ok (some pts, c, t) ∧
      pts.length = N := by
  unfold vtk_ascii_parse_points_and_cells
  obtain ⟨c1, hskip⟩ := vtkLoop_skip pf pi pre ((pre ++ hl :: body).length + 1)
    (hl :: body) none none none hpre
    (by simp only [List.length_append, List.length_cons]; omega)
  rw [hskip]
  have hF : (pre ++ hl :: body).length + 1 - pre.length = body.length + 2 := by
    simp only [List.length_append, List.length_cons]; omega
  rw [hF]
  have hcond : isPointsLine hl = true ∧ (pySplitWs (pyStrip hl)).length ≥ 2 := by
    refine ⟨hhl, ?_⟩
    rw [hsplit]
    simp
  have hn : (((pySplitWs (pyStrip hl)).drop 1).head?.bind pi).getD 0 = ((N : Nat) : Int) := by
    rw [hsplit]
    simp [hpi]
  have hlen1 : ((N : Nat) : Int) * 3 ≤
      (((collectFloats pf body (((N : Nat) : Int) * 3) []).1.length : Int)) := by
    apply collectFloats_len
    omega
  have hmin : min (((collectFloats pf body (((N : Nat) : Int) * 3) []).1.length : Int))
      (((N : Nat) : Int) * 3) = ((N : Nat) : Int) * 3 :=
    min_eq_right hlen1
  have hlen2 : 3 * N ≤ (collectFloats pf body (((N : Nat) : Int) * 3) []).1.length := by
    have := hlen1
    push_cast at this
    omega
  obtain ⟨pts, hbp, hplen⟩ := buildPts_ok N _ hlen2
  obtain ⟨c'', t'', hrest⟩ := vtkLoop_no_points pf pi (body.length + 1)
    (collectFloats pf body (((N : Nat) : Int) * 3) []).2 (some pts) c1 none
    (fun x hx => hbody x (collectFloats_rest_mem pf _ _ _ _ hx))
  refine ⟨pts, c'', t'', ?_, hplen⟩
  simp only [vtkLoop, if_pos hcond, hn, hmin, hbp, hrest]

/-- C5: for an existing ASCII VTK file whose single `POINTS` header declares
`N ≥ 1` points and whose body supplies at least `3·N` parseable coordinate
tokens, `mesh_stats` reports `point_count = N` — whatever the external
`trimesh.load` call does. -/
theorem c5_mesh_stats_point_count (pf : String → Option ℚ) (pi : String → Option Int)
    (pre body : List String) (hl w ns : String) (ws : List String) (N : Nat)
    (tm : TrimeshLoad)
    (hpre : ∀ l ∈ pre, isPointsLine l = false ∧ isCellTypesLine l = false)
    (hhl : isPointsLine hl = true)
    (hsplit : pySplitWs (pyStrip hl) = w :: ns :: ws)
    (hpi : pi ns = some ((N : Nat) : Int))
    (hbody : ∀ l ∈ body, isPointsLine l = false)
    (hflo : 3 * N ≤ (totalFloats pf body).length)
    (hN : 1 ≤ N) :
    ∃ st, mesh_stats pf pi ".vtk" tm (pre ++ hl :: body) = .ok st ∧
      st.point_count = some N := by
  obtain ⟨pts, c, t, hparse, hplen⟩ :=
    vtk_parse_points pf pi pre body hl w ns ws N hpre hhl hsplit hpi hbody hflo
  obtain ⟨p0, ps, rfl⟩ : ∃ p0 ps, pts = p0 :: ps := by
    cases pts with
    | nil => simp at hplen; omega
    | cons a l => exact ⟨a, l, rfl⟩
  unfold mesh_stats get_mesh_bounding_box
  cases tm with
  | bounds mn mx =>
    dsimp only
    rw [hparse, if_pos (Or.inl rfl : (".vtk" : String) = ".vtk" ∨ (".vtk" : String) = ".msh")]
    exact ⟨_, rfl, by simp [hplen]⟩
  | nobounds =>
    dsimp only
    rw [hparse]
    dsimp only
    rw [if_pos (Or.inl rfl : (".vtk" : String) = ".vtk" ∨ (".vtk" : String) = ".msh")]
    exact ⟨_, rfl, by simp [hplen]⟩
  | fails msg =>
    dsimp only
    rw [hparse]
    dsimp only
    rw [if_pos (Or.inl rfl : (".vtk" : String) = ".vtk" ∨ (".vtk" : String) = ".msh")]
    exact ⟨_, rfl, by simp [hplen]⟩

/-- Witness for C5 on the repository's own tetrahedron VTK fixture
(4 declared points, 12 coordinate tokens). -/
theorem c5_witness :
    (∀ l ∈ (["# vtk DataFile Version 2.0", "My Tetrahedron", "ASCII",
             "DATASET UNSTRUCTURED_GRID"] : List String),
      isPointsLine l = false ∧ isCellTypesLine l = false) ∧
    isPointsLine "POINTS 4 float" = true ∧
    pySplitWs (pyStrip "POINTS 4 float") = ["POINTS", "4", "float"] ∧
    parseDecInt "4" = some ((4 : Nat) : Int) ∧
    (∀ l ∈ (["0 0 0", "1 0 0", "0 1 0", "0 0 1", "CELLS 1 5", "4 0 1 2 3",
             "CELL_TYPES 1", "10"] : List String), isPointsLine l = false) ∧
    3 * 4 ≤ (totalFloats parseDec ["0 0 0", "1 0 0", "0 1 0", "0 0 1",
      "CELLS 1 5", "4 0 1 2 3", "CELL_TYPES 1", "10"]).length ∧
    ∃ st, mesh_stats parseDec parseDecInt ".vtk" (.fails "load error")
        (["# vtk DataFile Version 2.0", "My Tetrahedron", "ASCII",
          "DATASET UNSTRUCTURED_GRID"] ++ "POINTS 4 float" ::
         ["0 0 0", "1 0 0", "0 1 0", "0 0 1", "CELLS 1 5", "4 0 1 2 3",
          "CELL_TYPES 1", "10"]) = .ok st ∧
      st.point_count = some 4 :=
  ⟨by decide, by decide, by decide, by decide, by decide, by decide,
    c5_mesh_stats_point_count parseDec parseDecInt
      ["# vtk DataFile Version 2.0", "My Tetrahedron", "ASCII", "DATASET UNSTRUCTURED_GRID"]
      ["0 0 0", "1 0 0", "0 1 0", "0 0 1", "CELLS 1 5", "4 0 1 2 3", "CELL_TYPES 1", "10"]
      "POINTS 4 float" "POINTS" "4" ["float"] 4 (.fails "load error")
      (by decide) (by decide) (by decide) (by decide) (by decide) (by decide) (by decide)⟩

/-! ## Claim C3 -/

/-- C3 (code bug): `mesh_stats` on an existing ASCII VTK file whose
`POINTS` header declares more coordinates than the body supplies (here
`POINTS 2` with only four numeric tokens) raises an uncaught `IndexError`
from `_vtk_ascii_parse_points_and_cells` (`floats[k+1]` out of range) —
whatever the external `trimesh.load` does — instead of returning an
error dictionary. -/
theorem c3_mesh_stats_raises (tm : TrimeshLoad) :
    mesh_stats parseDec parseDecInt ".vtk" tm ["POINTS 2 float", "0 0 0 1"] =
      .error () := by
  cases tm <;> rfl
